import Mathlib

/-!
Verification development for the Memory-Palace-Builder-3D repository.

The TypeScript sources are shallowly embedded:
  * `geminiService.ts` — the generation workflow.  The external generative-AI
    service is modelled by an environment (`Env`) of response oracles; each
    outgoing request is recorded in a trace, and `Promise.all` over the four
    image requests is modelled by the all-or-nothing combinator `promiseAll`.
  * `FullscreenViewer.tsx` — the `handleNext` / `handlePrev` index arithmetic,
    over `Int` with JavaScript's truncating `%` (`Int.tmod`).
  * `ThreeDViewer.tsx` — the camera-control state machine (mouse drag,
    arrow keys, animation frames), with angles over `ℚ`.
-/

/-! ## Data model (types.ts, modelled from the spec)

`MemoryPalace`, `Scene`, `QuickRecapItem` mirror the JSON schema in
`geminiService.ts`.  `AnchorType` is a string in the source (compared against
the literal "upload"); `AnchorValue` is a tagged choice between a free-text
description and an uploaded image file. -/

structure Scene where
  locus : String
  description : String
deriving DecidableEq, Repr

structure QuickRecapItem where
  item : String
  locusHint : String
deriving DecidableEq, Repr

/-- The four schema fields of the text-generation response
(title, imagePrompt, scenes, quickRecap). -/
structure TextContent where
  title : String
  imagePrompt : String
  scenes : List Scene
  quickRecap : List QuickRecapItem
deriving DecidableEq, Repr

structure MemoryPalace where
  title : String
  imagePrompt : String
  scenes : List Scene
  quickRecap : List QuickRecapItem
  imageGenerations : List (List String)
deriving DecidableEq, Repr

/-- An uploaded image file.  The browser `FileReader` is external, so the file
is modelled by its MIME type together with the base64 payload that
`fileToBase64` would produce from it. -/
structure UploadedFile where
  mimeType : String
  base64Data : String
deriving DecidableEq, Repr

inductive AnchorValue where
  | str (s : String)
  | file (f : UploadedFile)
deriving DecidableEq, Repr

/-- `anchorValue as string` in the non-upload branch: a `File` object forced to
a string stringifies as "[object File]". -/
def AnchorValue.asString : AnchorValue → String
  | .str s => s
  | .file _ => "[object File]"

/-- `fileToBase64` (geminiService.ts:45-52): reads the file as a data URL and
keeps the payload after the comma; modelled by the file's base64 payload. -/
def fileToBase64 (f : UploadedFile) : String := f.base64Data

/-! ## dataUrlToBase64 (geminiService.ts:146-155)

`dataUrl.split(',')` is `splitComma` on the character list;
`parts[0].match(/:(.*?);/)` is `regexColonSemi`: the first position where a
`':'` is followed — without an intervening line terminator (`.` does not match
those) — by a `';'`, capturing lazily up to the first such `';'`. -/

/-- JavaScript `s.split(',')`: every comma is a separator, empty segments are
kept. -/
def splitComma : List Char → List (List Char)
  | [] => [[]]
  | c :: rest =>
    if c = ',' then [] :: splitComma rest
    else
      match splitComma rest with
      | [] => [[c]]
      | s :: ss => (c :: s) :: ss

/-- A line terminator, which `.` in a JavaScript regex does not match. -/
def isLineTerm (c : Char) : Bool :=
  c = '\n' || c = '\r' || c = '\u2028' || c = '\u2029'

/-- Lazy `(.*?);` at the current position: capture up to the first `';'`,
failing on a line terminator or the end of input. -/
def scanCapture : List Char → Option (List Char)
  | [] => none
  | c :: rest =>
    if c = ';' then some []
    else if isLineTerm c then none
    else (scanCapture rest).map (c :: ·)

/-- First match of `/:(.*?);/`: try each `':'` from the left; return the
capture group of the first position where the lazy scan succeeds. -/
def regexColonSemi : List Char → Option (List Char)
  | [] => none
  | c :: rest =>
    if c = ':' then
      match scanCapture rest with
      | some cap => some cap
      | none => regexColonSemi rest
    else regexColonSemi rest

def invalidDataUrlMsg : String := "Invalid data URL format"

/-- `dataUrlToBase64` (geminiService.ts:146-155).  The JavaScript falsiness
check `!mimeMatch || !mimeMatch[1] || !parts[1]` rejects a missing match, an
empty capture, a missing second segment and an empty second segment. -/
def dataUrlToBase64 (dataUrl : String) : Except String (String × String) :=
  let parts := splitComma dataUrl.toList
  match regexColonSemi (parts.headD []), parts.get? 1 with
  | some cap, some p1 =>
    if cap.isEmpty || p1.isEmpty then .error invalidDataUrlMsg
    else .ok (String.mk cap, String.mk p1)
  | _, _ => .error invalidDataUrlMsg

/-- Characters allowed in a (parameter-free) MIME type as far as
`dataUrlToBase64` is concerned: anything except the `';'` that ends the
capture, the `','` that splits the URL, and line terminators. -/
def isMimeChar (c : Char) : Bool :=
  !(c = ';' || c = ',' || isLineTerm c)

/-- The base64 alphabet. -/
def isBase64Char (c : Char) : Bool :=
  c.isAlphanum || c = '+' || c = '/' || c = '='

/-- The segment of the first comma-separated part, i.e. `split(',')[0]`. -/
def beforeFirstComma (l : List Char) : List Char := l.takeWhile (· ≠ ',')

/-- The segment between the first and second comma (`split(',')[1]`), when a
first comma exists at all. -/
def payloadSegment (l : List Char) : Option (List Char) :=
  match l.dropWhile (· ≠ ',') with
  | [] => none
  | _ :: r => some (r.takeWhile (· ≠ ','))

/-- Well-formedness as `dataUrlToBase64` sees it: a nonempty MIME capture
before the first comma, and a nonempty payload segment after it. -/
def wellFormedDataUrl (l : List Char) : Bool :=
  (match regexColonSemi (beforeFirstComma l) with
   | some cap => !cap.isEmpty
   | none => false) &&
  (match payloadSegment l with
   | some p => !p.isEmpty
   | none => false)

deriving instance DecidableEq for Except

/-! ## The generation workflow (geminiService.ts)

The external generative-AI service is modelled by an environment `Env` of
response oracles: `textRespond` gives the raw text of a `gemini-2.5-flash`
response, `imageRespond` gives the parts of the i-th of the four concurrent
`gemini-2.5-flash-image-preview` responses, and `parse` is `JSON.parse`
(successful exactly when the response text is valid JSON for the schema).
Every outgoing request is recorded in a trace (the second component of each
result), so "issued exactly once" and "text request before image requests" are
provable statements. -/

/-- One part of an outgoing request (`contents.parts`). -/
inductive ReqPart where
  | text (t : String)
  | inlineData (mimeType data : String)
deriving DecidableEq, Repr

/-- One part of an AI response (`response.candidates[0].content.parts`): either
inline image data or text.  A missing candidate/content is observationally the
empty part list (both make `find` return nothing). -/
inductive RespPart where
  | inlineData (mimeType data : String)
  | textPart (text : String)
deriving DecidableEq, Repr

/-- An outgoing request: target model plus content parts. -/
structure Request where
  model : String
  parts : List ReqPart
deriving DecidableEq, Repr

/-- The response oracles standing for the external Gemini service. -/
structure Env where
  textRespond : Request → String
  parse : String → Option TextContent
  imageRespond : Request → Nat → List RespPart

def textModel : String := "gemini-2.5-flash"

def imagePreviewModel : String := "gemini-2.5-flash-image-preview"

/-- prompts.ts: `buildUserPrompt` template literal. -/
def buildUserPrompt (anchorType anchorDetails listToMemorize : String) : String :=
  "Create a memory palace based on the following anchor and list.\n  \n  Anchor Type: "
    ++ anchorType ++ "\n  Anchor Details: " ++ anchorDetails
    ++ "\n  List to Memorize:\n  " ++ listToMemorize
    ++ "\n  \n  Follow all instructions and generate the output in the specified JSON format."

/-- prompts.ts: `buildRegenerationUserPrompt` template literal. -/
def buildRegenerationUserPrompt (listToMemorize : String) : String :=
  "This is an updated image for a memory palace. Based *only* on the visual elements in this new image, create a new set of mnemonic scenes and a quick recap for the following list. Define a new logical route if necessary.\n  \n  List to Memorize:\n  "
    ++ listToMemorize
    ++ "\n  \n  Follow all instructions and generate the output in the specified JSON format."

/-- `list.map(item => `- ${item}`).join('\n')`. -/
def listToMemorizeOf (list : List String) : String :=
  String.intercalate "\n" (list.map fun item => "- " ++ item)

/-- The `modelParts` built in `generateTextContent` (geminiService.ts:54-74):
for an uploaded file, inline data followed by the user prompt; otherwise just
the user prompt with the anchor value as the anchor details. -/
def textGenModelParts (anchorType : String) (anchorValue : AnchorValue)
    (list : List String) : List ReqPart :=
  match anchorValue, anchorType == "upload" with
  | .file f, true =>
    [.inlineData f.mimeType (fileToBase64 f),
     .text (buildUserPrompt anchorType "The user's provided photograph."
       (listToMemorizeOf list))]
  | v, _ =>
    [.text (buildUserPrompt anchorType v.asString (listToMemorizeOf list))]

def textRequest (anchorType : String) (anchorValue : AnchorValue)
    (list : List String) : Request :=
  ⟨textModel, textGenModelParts anchorType anchorValue list⟩

def invalidAIRespMsg : String := "The AI returned an invalid response. Please try again."

/-- `generateTextContent` (geminiService.ts:54-93): one request to the text
model; the trimmed response text is JSON-parsed, a parse failure raises the
content error. -/
def generateTextContent (env : Env) (anchorType : String) (anchorValue : AnchorValue)
    (list : List String) : Except String TextContent × List Request :=
  let req := textRequest anchorType anchorValue list
  let jsonString := (env.textRespond req).trim
  (match env.parse jsonString with
   | some tc => .ok tc
   | none => .error invalidAIRespMsg,
   [req])

def RespPart.hasInlineData : RespPart → Bool
  | .inlineData _ _ => true
  | .textPart _ => false

/-- `parts.find(part => part.inlineData)` followed by reading its fields. -/
def findInlineData (parts : List RespPart) : Option (String × String) :=
  match parts.find? RespPart.hasInlineData with
  | some (.inlineData mt d) => some (mt, d)
  | _ => none

def mkDataUrl (mimeType data : String) : String :=
  "data:" ++ mimeType ++ ";base64," ++ data

def genImageErrMsg : String :=
  "Failed to generate or edit the image. The model may have returned text instead."

def editImageErrMsg : String :=
  "Failed to edit the image. The model may have returned text instead."

/-- Body of `generateOneImage` (geminiService.ts:96-130) after the response
arrives: the first inline-data part becomes a data URL, otherwise the
content error is raised. -/
def processGenResponse (parts : List RespPart) : Except String String :=
  match findInlineData parts with
  | some (mt, d) => .ok (mkDataUrl mt d)
  | none => .error genImageErrMsg

/-- Body of `editOneImage` (geminiService.ts:160-187) after the response
arrives; identical except for the error message. -/
def processEditResponse (parts : List RespPart) : Except String String :=
  match findInlineData parts with
  | some (mt, d) => .ok (mkDataUrl mt d)
  | none => .error editImageErrMsg

/-- `Promise.all`: succeeds with all values when every promise fulfils,
rejects with the failing promise's error otherwise (all-or-nothing). -/
def promiseAll {α : Type} : List (Except String α) → Except String (List α)
  | [] => .ok []
  | .error e :: _ => .error e
  | .ok a :: rest => (promiseAll rest).map (a :: ·)

def imageStyleSuffix : String :=
  ". Style: photorealistic 3D render, first-person POV, wide-angle, immersive, high detail."

/-- The `modelParts` of one image-generation request (geminiService.ts:97-110). -/
def imageGenModelParts (anchorType : String) (anchorValue : AnchorValue)
    (prompt : String) : List ReqPart :=
  match anchorValue, anchorType == "upload" with
  | .file f, true => [.inlineData f.mimeType (fileToBase64 f), .text prompt]
  | _, _ => [.text (prompt ++ imageStyleSuffix)]

def imageGenRequest (anchorType : String) (anchorValue : AnchorValue)
    (prompt : String) : Request :=
  ⟨imagePreviewModel, imageGenModelParts anchorType anchorValue prompt⟩

/-- `generateImages` (geminiService.ts:95-134): four identical concurrent
requests (`Array(4).fill(0).map(() => generateOneImage())`), joined by
`Promise.all`.  All four requests are issued before the join. -/
def generateImages (env : Env) (anchorType : String) (anchorValue : AnchorValue)
    (prompt : String) : Except String (List String) × List Request :=
  let req := imageGenRequest anchorType anchorValue prompt
  (promiseAll (([0, 1, 2, 3] : List Nat).map fun i =>
     processGenResponse (env.imageRespond req i)),
   List.replicate 4 req)

/-- `generateMemoryPalace` (geminiService.ts:136-144): text generation first,
then image generation from the text result's `imagePrompt`, spread into the
result with the four URLs as a one-element history. -/
def generateMemoryPalace (env : Env) (anchorType : String) (anchorValue : AnchorValue)
    (list : List String) : Except String MemoryPalace × List Request :=
  match generateTextContent env anchorType anchorValue list with
  | (.error e, tr) => (.error e, tr)
  | (.ok textContent, tr1) =>
    match generateImages env anchorType anchorValue textContent.imagePrompt with
    | (.error e, tr2) => (.error e, tr1 ++ tr2)
    | (.ok imageUrls, tr2) =>
      (.ok { title := textContent.title, imagePrompt := textContent.imagePrompt,
             scenes := textContent.scenes, quickRecap := textContent.quickRecap,
             imageGenerations := [imageUrls] }, tr1 ++ tr2)

def editRequest (mimeType base64Data prompt : String) : Request :=
  ⟨imagePreviewModel, [.inlineData mimeType base64Data, .text prompt]⟩

/-- `editAndGenerateImages` (geminiService.ts:157-191): decode the base data
URL (a throw propagates), then four identical concurrent edit requests joined
by `Promise.all`. -/
def editAndGenerateImages (env : Env) (baseImageUrl prompt : String) :
    Except String (List String) × List Request :=
  match dataUrlToBase64 baseImageUrl with
  | .error e => (.error e, [])
  | .ok (mimeType, base64Data) =>
    let req := editRequest mimeType base64Data prompt
    (promiseAll (([0, 1, 2, 3] : List Nat).map fun i =>
       processEditResponse (env.imageRespond req i)),
     List.replicate 4 req)

def regenInvalidAIRespMsg : String :=
  "The AI returned an invalid response during text regeneration. Please try again."

def regenTextRequest (mimeType data : String) (list : List String) : Request :=
  ⟨textModel, [.inlineData mimeType data,
               .text (buildRegenerationUserPrompt (listToMemorizeOf list))]⟩

/-- `regenerateTextContent` (geminiService.ts:193-225): one request to the text
model carrying the reference image and the regeneration prompt. -/
def regenerateTextContent (env : Env) (mimeType data : String) (list : List String) :
    Except String TextContent × List Request :=
  let req := regenTextRequest mimeType data list
  (match env.parse ((env.textRespond req).trim) with
   | some tc => .ok tc
   | none => .error regenInvalidAIRespMsg,
   [req])

def regenFailedMsg : String := "Failed to generate new images during regeneration step."

/-- `regeneratePalace` (geminiService.ts:227-243): edit the base image into
four new images, guard against an empty result, decode the first new URL as
the reference image, re-derive the text content from it, and return the new
text fields with the new image set as a one-element history. -/
def regeneratePalace (env : Env) (baseImageUrl editPrompt : String) (list : List String) :
    Except String MemoryPalace × List Request :=
  match editAndGenerateImages env baseImageUrl editPrompt with
  | (.error e, tr) => (.error e, tr)
  | (.ok newImageUrls, tr1) =>
    if newImageUrls.isEmpty then (.error regenFailedMsg, tr1)
    else
      match dataUrlToBase64 (newImageUrls.headD "") with
      | .error e => (.error e, tr1)
      | .ok (mimeType, data) =>
        match regenerateTextContent env mimeType data list with
        | (.error e, tr2) => (.error e, tr1 ++ tr2)
        | (.ok tc, tr2) =>
          (.ok { title := tc.title, imagePrompt := tc.imagePrompt, scenes := tc.scenes,
                 quickRecap := tc.quickRecap, imageGenerations := [newImageUrls] },
           tr1 ++ tr2)

/-! ## Panorama viewer camera controls (ThreeDViewer.tsx)

The camera state machine: mouse down/move/up maintain a drag flag and the
previous pointer position; arrow keydown/keyup maintain the `keysPressed`
flags; an animation frame applies the key-driven rotation and clamps the pitch
to `[-Math.PI/2, Math.PI/2]`.  Angles and coordinates are modelled over `ℚ`
(the claims proved here are exact-arithmetic-robust: they depend only on
comparisons against the clamp bound, not on rounding). -/

/-- `rotationSpeed = 0.005` (ThreeDViewer.tsx:329). -/
def rotationSpeed : ℚ := 0.005

/-- `speed = 0.02` in the animation loop (ThreeDViewer.tsx:356). -/
def keySpeed : ℚ := 0.02

/-- The clamp bound `Math.PI / 2` (ThreeDViewer.tsx:365), as its double value
(which is strictly below the real `π / 2`). -/
def halfPiQ : ℚ := 1.5707963267948966

structure ViewerState where
  yaw : ℚ
  pitch : ℚ
  dragging : Bool
  prevX : ℚ
  prevY : ℚ
  upPressed : Bool
  downPressed : Bool
  leftPressed : Bool
  rightPressed : Bool
deriving DecidableEq, Repr

/-- Camera starts with default rotation (0, 0) and no drag or keys. -/
def initViewerState : ViewerState :=
  ⟨0, 0, false, 0, 0, false, false, false, false⟩

inductive ArrowKey where
  | up
  | down
  | left
  | right
deriving DecidableEq, Repr

inductive ViewerEvent where
  | mouseDown (x y : ℚ)
  | mouseMove (x y : ℚ)
  | mouseUp
  | keyDown (k : ArrowKey)
  | keyUp (k : ArrowKey)
  | frame
deriving DecidableEq, Repr

/-- `handleMouseMove` (ThreeDViewer.tsx:321-337): while dragging, yaw and pitch
move by the pointer delta times `rotationSpeed` — with no clamping here. -/
def handleMouseMove (s : ViewerState) (x y : ℚ) : ViewerState :=
  if s.dragging then
    { s with
      yaw := s.yaw - (x - s.prevX) * rotationSpeed,
      pitch := s.pitch - (y - s.prevY) * rotationSpeed,
      prevX := x, prevY := y }
  else s

/-- `handleKeyDown` / `handleKeyUp`: set or clear one arrow flag. -/
def setKey (s : ViewerState) (k : ArrowKey) (b : Bool) : ViewerState :=
  match k with
  | .up => { s with upPressed := b }
  | .down => { s with downPressed := b }
  | .left => { s with leftPressed := b }
  | .right => { s with rightPressed := b }

/-- One pass of `animate` (ThreeDViewer.tsx:353-368): apply key-driven yaw and
pitch deltas, then clamp the pitch with
`Math.max(-Math.PI / 2, Math.min(Math.PI / 2, camera.rotation.x))`. -/
def animateStep (s : ViewerState) : ViewerState :=
  let p1 := if s.upPressed then s.pitch - keySpeed else s.pitch
  let p2 := if s.downPressed then p1 + keySpeed else p1
  let y1 := if s.leftPressed then s.yaw + keySpeed else s.yaw
  let y2 := if s.rightPressed then y1 - keySpeed else y1
  { s with yaw := y2, pitch := max (-halfPiQ) (min halfPiQ p2) }

def viewerStep (s : ViewerState) : ViewerEvent → ViewerState
  | .mouseDown x y => { s with dragging := true, prevX := x, prevY := y }
  | .mouseMove x y => handleMouseMove s x y
  | .mouseUp => { s with dragging := false }
  | .keyDown k => setKey s k true
  | .keyUp k => setKey s k false
  | .frame => animateStep s

def viewerRun (s : ViewerState) (evs : List ViewerEvent) : ViewerState :=
  evs.foldl viewerStep s

/-! ## Fullscreen viewer navigation (FullscreenViewer.tsx)

`handleNext` / `handlePrev` (lines 14-20) over JavaScript numbers, with the
truncating remainder `%` (`Int.tmod`). -/

/-- `(prevIndex + 1) % images.length`. -/
def handleNext (len prevIndex : Int) : Int := Int.tmod (prevIndex + 1) len

/-- `(prevIndex - 1 + images.length) % images.length`. -/
def handlePrev (len prevIndex : Int) : Int := Int.tmod (prevIndex - 1 + len) len

inductive NavOp where
  | next
  | prev
deriving DecidableEq, Repr

def navStep (len i : Int) : NavOp → Int
  | .next => handleNext len i
  | .prev => handlePrev len i

def navRun (len i : Int) (ops : List NavOp) : Int := ops.foldl (navStep len) i

/-! ## Witness environments (concrete oracles used by witness theorems) -/

/-- A schema-shaped text result used by witnesses. -/
def tcW : TextContent :=
  ⟨"Memory Palace: Desk", "a photorealistic desk",
   [⟨"desk", "A **Pen** lies on the desk."⟩], [⟨"**Pen**", "on the desk"⟩]⟩

/-- An environment whose oracles always succeed. -/
def envOkW : Env :=
  ⟨fun _ => "schema json", fun _ => some tcW,
   fun _ _ => [.inlineData "image/png" "QUJD"]⟩

/-- An environment whose text response never parses as JSON. -/
def envBadJsonW : Env :=
  ⟨fun _ => "not json", fun _ => none, fun _ _ => [.inlineData "image/png" "QUJD"]⟩

/-- An environment where the third concurrent image request yields no image. -/
def envBadImgW : Env :=
  ⟨fun _ => "schema json", fun _ => some tcW,
   fun _ i => if i = 2 then [.textPart "refused"] else [.inlineData "image/png" "QUJD"]⟩

/-- A text result whose scene/recap counts do not match a two-item list. -/
def tcMismatchW : TextContent := ⟨"t", "p", [], []⟩

/-- An environment that parses every response into `tcMismatchW`. -/
def envMismatchW : Env :=
  ⟨fun _ => "schema json", fun _ => some tcMismatchW, fun _ _ => []⟩

/-- The four data URLs produced by `envOkW`'s image oracle. -/
def urlsW : List String := List.replicate 4 "data:image/png;base64,QUJD"

/-! ### Lemmas about the splitting machinery -/

theorem splitComma_ne_nil (l : List Char) : splitComma l ≠ [] := by
  cases l with
  | nil => simp [splitComma]
  | cons c rest =>
    simp only [splitComma]
    split
    · simp
    · split <;> simp

theorem splitComma_headD (l : List Char) :
    (splitComma l).headD [] = beforeFirstComma l := by
  induction l with
  | nil => simp [splitComma, beforeFirstComma]
  | cons c rest ih =>
    simp only [splitComma, beforeFirstComma, List.takeWhile]
    by_cases hc : c = ','
    · simp [hc]
    · simp only [if_neg hc, decide_eq_true_eq]
      have hne := splitComma_ne_nil rest
      cases hsp : splitComma rest with
      | nil => exact absurd hsp hne
      | cons s ss =>
        simp only [List.headD_cons]
        have : (decide ¬c = ',') = true := by simp [hc]
        rw [this]
        simp only [cond_true]
        rw [beforeFirstComma] at ih
        rw [hsp] at ih
        simp only [List.headD_cons] at ih
        rw [ih]

theorem splitComma_get?_one (l : List Char) :
    (splitComma l).get? 1 = payloadSegment l := by
  induction l with
  | nil => simp [splitComma, payloadSegment]
  | cons c rest ih =>
    simp only [splitComma, payloadSegment, List.dropWhile]
    by_cases hc : c = ','
    · simp only [if_pos hc, hc, decide_eq_true_eq]
      have : (decide ¬(',' : Char) = ',') = false := by simp
      rw [this]
      simp only [cond_false]
      have hne := splitComma_ne_nil rest
      cases hsp : splitComma rest with
      | nil => exact absurd hsp hne
      | cons s ss =>
        simp only [List.get?_cons_succ, List.get?_cons_zero]
        have h0 : (splitComma rest).headD [] = beforeFirstComma rest :=
          splitComma_headD rest
        rw [hsp] at h0
        simp only [List.headD_cons] at h0
        rw [h0]
        rfl
    · simp only [if_neg hc]
      have : (decide ¬c = ',') = true := by simp [hc]
      rw [this]
      simp only [cond_true]
      have hne := splitComma_ne_nil rest
      cases hsp : splitComma rest with
      | nil => exact absurd hsp hne
      | cons s ss =>
        simp only [List.get?_cons_succ]
        rw [hsp] at ih
        simp only [List.get?_cons_succ] at ih
        exact ih

theorem isMimeChar_ne_comma {c : Char} (h : isMimeChar c = true) : c ≠ ',' := by
  intro hc; rw [hc] at h; exact absurd h (by decide)

theorem isMimeChar_ne_semi {c : Char} (h : isMimeChar c = true) : c ≠ ';' := by
  intro hc; rw [hc] at h; exact absurd h (by decide)

theorem isMimeChar_not_lineTerm {c : Char} (h : isMimeChar c = true) :
    isLineTerm c = false := by
  simp only [isMimeChar, Bool.not_eq_true'] at h
  simp only [Bool.or_eq_false_iff] at h
  exact h.2

theorem isBase64Char_ne_comma {c : Char} (h : isBase64Char c = true) : c ≠ ',' := by
  intro hc; rw [hc] at h; exact absurd h (by decide)

theorem splitComma_no_comma {l : List Char} (h : ∀ c ∈ l, c ≠ ',') :
    splitComma l = [l] := by
  induction l with
  | nil => rfl
  | cons c rest ih =>
    have hc : c ≠ ',' := h c (List.mem_cons_self c rest)
    have hrest : splitComma rest = [rest] := ih fun x hx => h x (List.mem_cons_of_mem c hx)
    simp only [splitComma, if_neg hc, hrest]

theorem splitComma_append {l r : List Char} (h : ∀ c ∈ l, c ≠ ',') :
    splitComma (l ++ ',' :: r) = l :: splitComma r := by
  induction l with
  | nil => simp [splitComma]
  | cons c rest ih =>
    have hc : c ≠ ',' := h c (List.mem_cons_self c rest)
    have hrest := ih fun x hx => h x (List.mem_cons_of_mem c hx)
    simp only [List.cons_append, splitComma, if_neg hc, List.append_eq, hrest]

theorem scanCapture_append {l : List Char} (r : List Char)
    (h : ∀ c ∈ l, isMimeChar c = true) :
    scanCapture (l ++ ';' :: r) = some l := by
  induction l with
  | nil => simp [scanCapture]
  | cons c rest ih =>
    have hc := h c (List.mem_cons_self c rest)
    have hrest := ih fun x hx => h x (List.mem_cons_of_mem c hx)
    simp only [List.cons_append, scanCapture, if_neg (isMimeChar_ne_semi hc),
      isMimeChar_not_lineTerm hc, if_neg (Bool.false_ne_true), List.append_eq, hrest]
    rfl

theorem regexColonSemi_dataPrefix (m r : List Char)
    (hm : ∀ c ∈ m, isMimeChar c = true) :
    regexColonSemi ('d' :: 'a' :: 't' :: 'a' :: ':' :: (m ++ ';' :: r)) = some m := by
  have h1 : ('d' : Char) ≠ ':' := by decide
  have h2 : ('a' : Char) ≠ ':' := by decide
  have h3 : ('t' : Char) ≠ ':' := by decide
  simp only [regexColonSemi, if_neg h1, if_neg h2, if_neg h3,
    scanCapture_append r hm]
  simp

theorem string_toList_ne_nil {s : String} (h : s ≠ "") : s.toList ≠ [] := by
  intro hnil
  apply h
  cases s with
  | mk data => cases data with
    | nil => rfl
    | cons c cs => simp [String.toList] at hnil

theorem toList_append (s t : String) : (s ++ t).toList = s.toList ++ t.toList := by
  simp [String.toList, String.data_append]

/-- C5: encoding a MIME type and a base64 payload into a
`data:<mimeType>;base64,<payload>` URL and decoding with `dataUrlToBase64`
returns the original pair.  The hypotheses say that the inputs really are a
(parameter-free) MIME type and a base64 payload: both nonempty, the MIME type
free of `';'`/`','`/line terminators, the payload drawn from the base64
alphabet. -/
theorem dataUrlToBase64_roundtrip (mimeType data : String)
    (hm : mimeType ≠ "") (hd : data ≠ "")
    (hmc : ∀ c ∈ mimeType.toList, isMimeChar c = true)
    (hdc : ∀ c ∈ data.toList, isBase64Char c = true) :
    dataUrlToBase64 ("data:" ++ mimeType ++ ";base64," ++ data)
      = .ok (mimeType, data) := by
  set mC := mimeType.toList with hmC
  set dC := data.toList with hdC
  have hlist : ("data:" ++ mimeType ++ ";base64," ++ data).toList
      = ('d' :: 'a' :: 't' :: 'a' :: ':' ::
          (mC ++ ';' :: ['b', 'a', 's', 'e', '6', '4'])) ++ ',' :: dC := by
    simp only [toList_append]
    have h1 : "data:".toList = ['d', 'a', 't', 'a', ':'] := rfl
    have h2 : ";base64,".toList = [';', 'b', 'a', 's', 'e', '6', '4', ','] := rfl
    rw [h1, h2]
    simp [hmC, hdC, String.toList, List.append_assoc]
  have hnocomma : ∀ c ∈ ('d' :: 'a' :: 't' :: 'a' :: ':' ::
      (mC ++ ';' :: ['b', 'a', 's', 'e', '6', '4'])), c ≠ ',' := by
    intro c hc
    simp only [List.mem_cons, List.mem_append, List.not_mem_nil, or_false] at hc
    rcases hc with h | h | h | h | h | hmem | h | h | h | h | h | h | h
    · rw [h]; decide
    · rw [h]; decide
    · rw [h]; decide
    · rw [h]; decide
    · rw [h]; decide
    · exact isMimeChar_ne_comma (hmc c hmem)
    · rw [h]; decide
    · rw [h]; decide
    · rw [h]; decide
    · rw [h]; decide
    · rw [h]; decide
    · rw [h]; decide
    · rw [h]; decide
  have hdnocomma : ∀ c ∈ dC, c ≠ ',' := fun c hc => isBase64Char_ne_comma (hdc c hc)
  simp only [dataUrlToBase64, hlist, splitComma_append hnocomma, splitComma_no_comma hdnocomma,
    List.headD_cons, List.get?_cons_succ, List.get?_cons_zero]
  rw [regexColonSemi_dataPrefix mC ['b', 'a', 's', 'e', '6', '4'] hmc]
  have hmne : mC.isEmpty = false := by
    cases hh : mC with
    | nil => exact absurd (hmC ▸ hh) (string_toList_ne_nil hm)
    | cons x xs => rfl
  have hdne : dC.isEmpty = false := by
    cases hh : dC with
    | nil => exact absurd (hdC ▸ hh) (string_toList_ne_nil hd)
    | cons x xs => rfl
  simp only [hmne, hdne, Bool.or_self, Bool.false_eq_true, if_false]
  rfl

/-- C6: `dataUrlToBase64` throws "Invalid data URL format" exactly on malformed
input — no (nonempty) MIME-type capture before the first comma, or no
(nonempty) payload segment after it — and succeeds on all well-formed input. -/
theorem dataUrlToBase64_error_characterization (s : String) :
    (dataUrlToBase64 s).isOk = wellFormedDataUrl s.toList ∧
    (wellFormedDataUrl s.toList = false →
      dataUrlToBase64 s = .error "Invalid data URL format") := by
  have hhead := splitComma_headD s.toList
  have hget := splitComma_get?_one s.toList
  simp only [dataUrlToBase64, wellFormedDataUrl, hhead, hget]
  cases hr : regexColonSemi (beforeFirstComma s.toList) with
  | none =>
    cases hp : payloadSegment s.toList with
    | none => exact ⟨rfl, fun _ => rfl⟩
    | some p => exact ⟨rfl, fun _ => rfl⟩
  | some cap =>
    cases hp : payloadSegment s.toList with
    | none => simp [invalidDataUrlMsg, Except.isOk, Except.toBool]
    | some p =>
      cases hcap : cap.isEmpty with
      | true => simp [hcap, invalidDataUrlMsg, Except.isOk, Except.toBool]
      | false =>
        cases hpe : p.isEmpty with
        | true => simp [hcap, hpe, invalidDataUrlMsg, Except.isOk, Except.toBool]
        | false => simp [hcap, hpe, invalidDataUrlMsg, Except.isOk, Except.toBool]

/-! ### Lemmas about the Promise.all combinator -/

theorem promiseAll_ok {α : Type} {l : List (Except String α)} {as : List α}
    (h : promiseAll l = .ok as) : l = as.map Except.ok := by
  induction l generalizing as with
  | nil =>
    simp only [promiseAll, Except.ok.injEq] at h
    rw [← h]
    rfl
  | cons x rest ih =>
    cases x with
    | error e => simp [promiseAll] at h
    | ok a =>
      simp only [promiseAll] at h
      cases hr : promiseAll rest with
      | error e => rw [hr] at h; simp [Except.map] at h
      | ok as' =>
        rw [hr] at h
        simp only [Except.map, Except.ok.injEq] at h
        rw [← h, List.map_cons]
        rw [ih hr]

theorem promiseAll_error_of_mem {α : Type} {l : List (Except String α)} {e : String}
    (h : Except.error e ∈ l) (huniq : ∀ e', Except.error e' ∈ l → e' = e) :
    promiseAll l = .error e := by
  induction l with
  | nil => exact absurd h (List.not_mem_nil _)
  | cons x rest ih =>
    cases x with
    | error e' =>
      have : e' = e := huniq e' (List.mem_cons_self _ _)
      rw [this]
      rfl
    | ok a =>
      have hmem : Except.error e ∈ rest := by
        rcases List.mem_cons.mp h with h' | h'
        · exact absurd h' (by simp)
        · exact h'
      have hrest := ih hmem fun e' he' => huniq e' (List.mem_cons_of_mem _ he')
      simp only [promiseAll, hrest]
      rfl

theorem processGenResponse_ok {ps : List RespPart} {u : String}
    (h : processGenResponse ps = .ok u) :
    ∃ mt d, findInlineData ps = some (mt, d) ∧ u = mkDataUrl mt d := by
  unfold processGenResponse at h
  cases hf : findInlineData ps with
  | none => rw [hf] at h; exact absurd h (by simp)
  | some p =>
    rw [hf] at h
    exact ⟨p.1, p.2, rfl, by simpa using h.symm⟩

theorem processEditResponse_ok {ps : List RespPart} {u : String}
    (h : processEditResponse ps = .ok u) :
    ∃ mt d, findInlineData ps = some (mt, d) ∧ u = mkDataUrl mt d := by
  unfold processEditResponse at h
  cases hf : findInlineData ps with
  | none => rw [hf] at h; exact absurd h (by simp)
  | some p =>
    rw [hf] at h
    exact ⟨p.1, p.2, rfl, by simpa using h.symm⟩

theorem processGenResponse_error {ps : List RespPart} {e : String}
    (h : processGenResponse ps = .error e) : e = genImageErrMsg := by
  unfold processGenResponse at h
  cases hf : findInlineData ps with
  | none => rw [hf] at h; simpa using h.symm
  | some p => rw [hf] at h; exact absurd h (by simp)

theorem processEditResponse_error {ps : List RespPart} {e : String}
    (h : processEditResponse ps = .error e) : e = editImageErrMsg := by
  unfold processEditResponse at h
  cases hf : findInlineData ps with
  | none => rw [hf] at h; simpa using h.symm
  | some p => rw [hf] at h; exact absurd h (by simp)

theorem processGenResponse_error_of_none {ps : List RespPart}
    (h : findInlineData ps = none) : processGenResponse ps = .error genImageErrMsg := by
  unfold processGenResponse
  rw [h]

theorem processEditResponse_error_of_none {ps : List RespPart}
    (h : findInlineData ps = none) : processEditResponse ps = .error editImageErrMsg := by
  unfold processEditResponse
  rw [h]

/-- Shape of a successful four-request generation batch. -/
theorem gen_batch_ok {resp : Nat → List RespPart} {urls : List String}
    (h : promiseAll (([0, 1, 2, 3] : List Nat).map fun i =>
      processGenResponse (resp i)) = .ok urls) :
    urls.length = 4 ∧ ∀ u ∈ urls, ∃ mt d, u = mkDataUrl mt d := by
  have hl := promiseAll_ok h
  constructor
  · have hlen := congrArg List.length hl
    simp only [List.length_map] at hlen
    simpa using hlen.symm
  · intro u hu
    have hmem : Except.ok u ∈ (([0, 1, 2, 3] : List Nat).map fun i =>
        processGenResponse (resp i)) := by
      rw [hl]
      exact List.mem_map_of_mem _ hu
    rcases List.mem_map.mp hmem with ⟨i, _, hpi⟩
    rcases processGenResponse_ok hpi with ⟨mt, d, _, hu'⟩
    exact ⟨mt, d, hu'⟩

/-- Shape of a successful four-request edit batch. -/
theorem edit_batch_ok {resp : Nat → List RespPart} {urls : List String}
    (h : promiseAll (([0, 1, 2, 3] : List Nat).map fun i =>
      processEditResponse (resp i)) = .ok urls) :
    urls.length = 4 ∧ ∀ u ∈ urls, ∃ mt d, u = mkDataUrl mt d := by
  have hl := promiseAll_ok h
  constructor
  · have hlen := congrArg List.length hl
    simp only [List.length_map] at hlen
    simpa using hlen.symm
  · intro u hu
    have hmem : Except.ok u ∈ (([0, 1, 2, 3] : List Nat).map fun i =>
        processEditResponse (resp i)) := by
      rw [hl]
      exact List.mem_map_of_mem _ hu
    rcases List.mem_map.mp hmem with ⟨i, _, hpi⟩
    rcases processEditResponse_ok hpi with ⟨mt, d, _, hu'⟩
    exact ⟨mt, d, hu'⟩

/-- One image-less response among the four fails the whole generation batch
with the generation content error. -/
theorem gen_batch_error {resp : Nat → List RespPart} {i : Nat} (hi : i < 4)
    (hnone : findInlineData (resp i) = none) :
    promiseAll (([0, 1, 2, 3] : List Nat).map fun i =>
      processGenResponse (resp i)) = .error genImageErrMsg := by
  apply promiseAll_error_of_mem
  · apply List.mem_map.mpr
    refine ⟨i, ?_, processGenResponse_error_of_none hnone⟩
    simp only [List.mem_cons, List.not_mem_nil, or_false]
    omega
  · intro e' he'
    rcases List.mem_map.mp he' with ⟨j, _, hpj⟩
    exact processGenResponse_error hpj

/-- One image-less response among the four fails the whole edit batch with the
edit content error. -/
theorem edit_batch_error {resp : Nat → List RespPart} {i : Nat} (hi : i < 4)
    (hnone : findInlineData (resp i) = none) :
    promiseAll (([0, 1, 2, 3] : List Nat).map fun i =>
      processEditResponse (resp i)) = .error editImageErrMsg := by
  apply promiseAll_error_of_mem
  · apply List.mem_map.mpr
    refine ⟨i, ?_, processEditResponse_error_of_none hnone⟩
    simp only [List.mem_cons, List.not_mem_nil, or_false]
    omega
  · intro e' he'
    rcases List.mem_map.mp he' with ⟨j, _, hpj⟩
    exact processEditResponse_error hpj

/-- A successful `editAndGenerateImages` result always has exactly 4 URLs. -/
theorem editAndGenerateImages_ok_shape {env : Env} {baseImageUrl prompt : String}
    {urls : List String}
    (h : (editAndGenerateImages env baseImageUrl prompt).1 = .ok urls) :
    urls.length = 4 ∧ ∀ u ∈ urls, ∃ mt d, u = mkDataUrl mt d := by
  unfold editAndGenerateImages at h
  cases hd : dataUrlToBase64 baseImageUrl with
  | error e => rw [hd] at h; exact absurd h (by simp)
  | ok md =>
    rw [hd] at h
    exact edit_batch_ok h

/-- A successful `generateImages` result always has exactly 4 URLs. -/
theorem generateImages_ok_shape {env : Env} {anchorType : String}
    {anchorValue : AnchorValue} {prompt : String} {urls : List String}
    (h : (generateImages env anchorType anchorValue prompt).1 = .ok urls) :
    urls.length = 4 ∧ ∀ u ∈ urls, ∃ mt d, u = mkDataUrl mt d := by
  unfold generateImages at h
  exact gen_batch_ok h

/-! ## Claim theorems -/

/-- C1: `generateMemoryPalace` first runs text generation, then image
generation on the `imagePrompt` field of the text result (the image requests
follow the text request in the trace: sequential, data-dependent), and on
success returns all fields of the text result plus `imageGenerations` equal to
the one-element array holding the four-URL image set. -/
theorem generateMemoryPalace_sequential_composition
    (env : Env) (anchorType : String) (anchorValue : AnchorValue) (list : List String)
    (tc : TextContent) (urls : List String)
    (htext : (generateTextContent env anchorType anchorValue list).1 = .ok tc)
    (himg : (generateImages env anchorType anchorValue tc.imagePrompt).1 = .ok urls) :
    generateMemoryPalace env anchorType anchorValue list =
      (.ok { title := tc.title, imagePrompt := tc.imagePrompt, scenes := tc.scenes,
             quickRecap := tc.quickRecap, imageGenerations := [urls] },
       (generateTextContent env anchorType anchorValue list).2
         ++ (generateImages env anchorType anchorValue tc.imagePrompt).2) := by
  rcases hgt : generateTextContent env anchorType anchorValue list with ⟨rt, trt⟩
  rw [hgt] at htext
  simp only at htext
  subst htext
  rcases hgi : generateImages env anchorType anchorValue tc.imagePrompt with ⟨ri, tri⟩
  rw [hgi] at himg
  simp only at himg
  subst himg
  unfold generateMemoryPalace
  simp only [hgt, hgi]

theorem generateMemoryPalace_sequential_composition_witness :
    (generateTextContent envOkW "place" (.str "desk") ["Pen"]).1 = .ok tcW ∧
    generateMemoryPalace envOkW "place" (.str "desk") ["Pen"] =
      (.ok { title := tcW.title, imagePrompt := tcW.imagePrompt, scenes := tcW.scenes,
             quickRecap := tcW.quickRecap, imageGenerations := [urlsW] },
       (generateTextContent envOkW "place" (.str "desk") ["Pen"]).2
         ++ (generateImages envOkW "place" (.str "desk") tcW.imagePrompt).2) := by
  refine ⟨by decide, ?_⟩
  have h := generateMemoryPalace_sequential_composition envOkW "place" (.str "desk") ["Pen"]
    tcW urlsW (by decide) (by decide)
  rw [h]

/-- C7: a text response that is not valid JSON makes `generateTextContent`
throw the "invalid AI response" content error, and the call issues exactly one
request (no retry). -/
theorem generateTextContent_invalidJson_error_no_retry
    (env : Env) (anchorType : String) (anchorValue : AnchorValue) (list : List String)
    (hbad : env.parse ((env.textRespond (textRequest anchorType anchorValue list)).trim)
      = none) :
    generateTextContent env anchorType anchorValue list =
      (.error "The AI returned an invalid response. Please try again.",
       [textRequest anchorType anchorValue list]) ∧
    ((generateTextContent env anchorType anchorValue list).2).length = 1 := by
  simp only [generateTextContent, hbad]
  exact ⟨rfl, rfl⟩

theorem generateTextContent_invalidJson_error_no_retry_witness :
    envBadJsonW.parse ((envBadJsonW.textRespond
      (textRequest "place" (.str "desk") ["Pen"])).trim) = none ∧
    generateTextContent envBadJsonW "place" (.str "desk") ["Pen"] =
      (.error "The AI returned an invalid response. Please try again.",
       [textRequest "place" (.str "desk") ["Pen"]]) :=
  ⟨rfl, (generateTextContent_invalidJson_error_no_retry envBadJsonW "place" (.str "desk")
    ["Pen"] rfl).1⟩

/-- C8: the text-content generator enforces no relation between the response's
`scenes`/`quickRecap` lengths and the input list's length: a response can parse
successfully with mismatching lengths and is returned without error. -/
theorem generateTextContent_no_length_validation :
    ∃ (env : Env) (anchorType : String) (anchorValue : AnchorValue)
      (list : List String) (tc : TextContent),
      env.parse ((env.textRespond (textRequest anchorType anchorValue list)).trim)
        = some tc ∧
      tc.scenes.length ≠ list.length ∧
      tc.quickRecap.length ≠ list.length ∧
      (generateTextContent env anchorType anchorValue list).1 = .ok tc := by
  exact ⟨envMismatchW, "place", .str "desk", ["alpha", "beta"], tcMismatchW,
    rfl, by decide, by decide, by decide⟩

/-- C2: for both image generators, a successful join yields exactly 4 data-URL
entries, and any single image-less response among the four fails the whole
operation with the corresponding content error — there is no partial-success
result. -/
theorem imageSet_allOrNothing (env : Env) (anchorType : String)
    (anchorValue : AnchorValue) (prompt baseImageUrl editPrompt : String) :
    (∀ urls, (generateImages env anchorType anchorValue prompt).1 = .ok urls →
        urls.length = 4 ∧ ∀ u ∈ urls, ∃ mt d, u = mkDataUrl mt d) ∧
    (∀ i, i < 4 →
        findInlineData (env.imageRespond (imageGenRequest anchorType anchorValue prompt) i)
          = none →
        (generateImages env anchorType anchorValue prompt).1 = .error genImageErrMsg) ∧
    (∀ urls, (editAndGenerateImages env baseImageUrl editPrompt).1 = .ok urls →
        urls.length = 4 ∧ ∀ u ∈ urls, ∃ mt d, u = mkDataUrl mt d) ∧
    (∀ mt d, dataUrlToBase64 baseImageUrl = .ok (mt, d) →
        ∀ i, i < 4 →
        findInlineData (env.imageRespond (editRequest mt d editPrompt) i) = none →
        (editAndGenerateImages env baseImageUrl editPrompt).1 = .error editImageErrMsg) := by
  refine ⟨fun urls h => generateImages_ok_shape h, ?_, fun urls h => editAndGenerateImages_ok_shape h, ?_⟩
  · intro i hi hnone
    unfold generateImages
    exact gen_batch_error hi hnone
  · intro mt d hd i hi hnone
    unfold editAndGenerateImages
    rw [hd]
    exact edit_batch_error hi hnone

theorem imageSet_allOrNothing_witness :
    (urlsW.length = 4 ∧ ∀ u ∈ urlsW, ∃ mt d, u = mkDataUrl mt d) ∧
    (generateImages envBadImgW "place" (.str "desk") "p").1 = .error genImageErrMsg ∧
    (editAndGenerateImages envBadImgW "data:image/png;base64,QUJD" "e").1
      = .error editImageErrMsg :=
  ⟨(imageSet_allOrNothing envOkW "place" (.str "desk") "p" "data:image/png;base64,QUJD"
      "e").1 urlsW (by decide),
   (imageSet_allOrNothing envBadImgW "place" (.str "desk") "p" "data:image/png;base64,QUJD"
      "e").2.1 2 (by decide) (by decide),
   (imageSet_allOrNothing envBadImgW "place" (.str "desk") "p" "data:image/png;base64,QUJD"
      "e").2.2.2 "image/png" "QUJD" (by decide) 2 (by decide) (by decide)⟩

/-- C3: `regeneratePalace` edits the base image into four new images, decodes
the first new URL as the canonical reference, re-derives the text content from
that single reference image (the regeneration request carries it), and returns
the new text fields plus `imageGenerations` equal to the one-element array
holding the four new URLs. -/
theorem regeneratePalace_pipeline (env : Env) (baseImageUrl editPrompt : String)
    (list : List String) (urls : List String) (mt d : String) (tc : TextContent)
    (himg : (editAndGenerateImages env baseImageUrl editPrompt).1 = .ok urls)
    (href : dataUrlToBase64 (urls.headD "") = .ok (mt, d))
    (htc : (regenerateTextContent env mt d list).1 = .ok tc) :
    regeneratePalace env baseImageUrl editPrompt list =
      (.ok { title := tc.title, imagePrompt := tc.imagePrompt, scenes := tc.scenes,
             quickRecap := tc.quickRecap, imageGenerations := [urls] },
       (editAndGenerateImages env baseImageUrl editPrompt).2
         ++ (regenerateTextContent env mt d list).2) := by
  have hlen := (editAndGenerateImages_ok_shape himg).1
  have hne : urls.isEmpty = false := by
    cases urls with
    | nil => simp at hlen
    | cons u us => rfl
  rcases hed : editAndGenerateImages env baseImageUrl editPrompt with ⟨re, tre⟩
  rw [hed] at himg
  simp only at himg
  subst himg
  rcases hrt : regenerateTextContent env mt d list with ⟨rr, trr⟩
  rw [hrt] at htc
  simp only at htc
  subst htc
  unfold regeneratePalace
  simp only [hed, hne, Bool.false_eq_true, if_false, href, hrt]

theorem regeneratePalace_pipeline_witness :
    (editAndGenerateImages envOkW "data:image/png;base64,QUJD" "e").1 = .ok urlsW ∧
    regeneratePalace envOkW "data:image/png;base64,QUJD" "e" ["Pen"] =
      (.ok { title := tcW.title, imagePrompt := tcW.imagePrompt, scenes := tcW.scenes,
             quickRecap := tcW.quickRecap, imageGenerations := [urlsW] },
       (editAndGenerateImages envOkW "data:image/png;base64,QUJD" "e").2
         ++ (regenerateTextContent envOkW "image/png" "QUJD" ["Pen"]).2) := by
  refine ⟨by decide, ?_⟩
  have h := regeneratePalace_pipeline envOkW "data:image/png;base64,QUJD" "e" ["Pen"]
    urlsW "image/png" "QUJD" tcW (by decide) (by decide) (by decide)
  rw [h]

theorem promiseAll_error_mem {α : Type} {l : List (Except String α)} {e : String}
    (h : promiseAll l = .error e) : Except.error e ∈ l := by
  induction l with
  | nil => simp [promiseAll] at h
  | cons x rest ih =>
    cases x with
    | error e' =>
      simp only [promiseAll, Except.error.injEq] at h
      rw [h]
      exact List.mem_cons_self _ _
    | ok a =>
      simp only [promiseAll] at h
      cases hr : promiseAll rest with
      | error e'' =>
        rw [hr] at h
        simp only [Except.map, Except.error.injEq] at h
        rw [h] at hr
        exact List.mem_cons_of_mem _ (ih hr)
      | ok as => rw [hr] at h; simp [Except.map] at h

/-- The only error `dataUrlToBase64` raises is the format error. -/
theorem dataUrlToBase64_error_msg {s e : String} (h : dataUrlToBase64 s = .error e) :
    e = invalidDataUrlMsg := by
  simp only [dataUrlToBase64] at h
  cases hm : regexColonSemi ((splitComma s.toList).headD []) with
  | none =>
    rw [hm] at h
    cases hp : (splitComma s.toList).get? 1 with
    | none => rw [hp] at h; simp only [Except.error.injEq] at h; exact h.symm
    | some p => rw [hp] at h; simp only [Except.error.injEq] at h; exact h.symm
  | some cap =>
    rw [hm] at h
    cases hp : (splitComma s.toList).get? 1 with
    | none => rw [hp] at h; simp only [Except.error.injEq] at h; exact h.symm
    | some p =>
      rw [hp] at h
      by_cases hie : (cap.isEmpty || p.isEmpty) = true
      · simp only [hie, if_true, Except.error.injEq] at h; exact h.symm
      · simp only [hie, if_false] at h; exact absurd h (by simp)

/-- `editAndGenerateImages` can only fail with the data-URL format error or
the edit content error. -/
theorem editAndGenerateImages_error_msgs {env : Env} {baseImageUrl prompt e : String}
    (h : (editAndGenerateImages env baseImageUrl prompt).1 = .error e) :
    e = invalidDataUrlMsg ∨ e = editImageErrMsg := by
  unfold editAndGenerateImages at h
  cases hd : dataUrlToBase64 baseImageUrl with
  | error e' =>
    rw [hd] at h
    simp only [Except.error.injEq] at h
    rw [← h]
    exact Or.inl (dataUrlToBase64_error_msg hd)
  | ok md =>
    rw [hd] at h
    simp only at h
    have hmem := promiseAll_error_mem h
    rcases List.mem_map.mp hmem with ⟨i, _, hpi⟩
    exact Or.inr (processEditResponse_error hpi)

/-- `regenerateTextContent` can only fail with the regeneration content
error. -/
theorem regenerateTextContent_error_msg {env : Env} {mt d e : String}
    {list : List String}
    (h : (regenerateTextContent env mt d list).1 = .error e) :
    e = regenInvalidAIRespMsg := by
  simp only [regenerateTextContent] at h
  cases hp : env.parse ((env.textRespond (regenTextRequest mt d list)).trim) with
  | none => rw [hp] at h; simpa using h.symm
  | some tc => rw [hp] at h; exact absurd h (by simp)

/-- C9: the guard `if (!newImageUrls || newImageUrls.length === 0)` in
`regeneratePalace` is unreachable: a successful `editAndGenerateImages` always
returns exactly 4 URLs, so `regeneratePalace` never raises "Failed to generate
new images during regeneration step.". -/
theorem regenerate_guard_unreachable (env : Env) (baseImageUrl editPrompt : String)
    (list : List String) :
    (∀ urls, (editAndGenerateImages env baseImageUrl editPrompt).1 = .ok urls →
      urls.length = 4) ∧
    (regeneratePalace env baseImageUrl editPrompt list).1 ≠ .error regenFailedMsg := by
  constructor
  · intro urls h
    exact (editAndGenerateImages_ok_shape h).1
  · intro hcontra
    unfold regeneratePalace at hcontra
    rcases hed : editAndGenerateImages env baseImageUrl editPrompt with ⟨re, tre⟩
    rw [hed] at hcontra
    cases re with
    | error e =>
      simp only [Except.error.injEq] at hcontra
      have he : (editAndGenerateImages env baseImageUrl editPrompt).1 = .error e := by
        rw [hed]
      rcases editAndGenerateImages_error_msgs he with h' | h' <;>
        rw [hcontra] at h' <;>
          exact absurd h' (by decide)
    | ok urls =>
      have hok : (editAndGenerateImages env baseImageUrl editPrompt).1 = .ok urls := by
        rw [hed]
      have hlen := (editAndGenerateImages_ok_shape hok).1
      have hne : urls.isEmpty = false := by
        cases urls with
        | nil => simp at hlen
        | cons u us => rfl
      simp only [hne, Bool.false_eq_true, if_false] at hcontra
      cases hd : dataUrlToBase64 (urls.headD "") with
      | error e =>
        rw [hd] at hcontra
        simp only [Except.error.injEq] at hcontra
        have := dataUrlToBase64_error_msg hd
        rw [hcontra] at this
        exact absurd this (by decide)
      | ok md =>
        obtain ⟨mt0, d0⟩ := md
        rw [hd] at hcontra
        simp only [] at hcontra
        rcases hrt : regenerateTextContent env mt0 d0 list with ⟨rr, trr⟩
        rw [hrt] at hcontra
        cases rr with
        | error e =>
          simp only [Except.error.injEq] at hcontra
          have he : (regenerateTextContent env mt0 d0 list).1 = .error e := by rw [hrt]
          have := regenerateTextContent_error_msg he
          rw [hcontra] at this
          exact absurd this (by decide)
        | ok tc => simp at hcontra

theorem regenerate_guard_unreachable_witness :
    urlsW.length = 4 ∧
    (regeneratePalace envOkW "data:image/png;base64,QUJD" "e" ["Pen"]).1
      ≠ .error regenFailedMsg :=
  ⟨(regenerate_guard_unreachable envOkW "data:image/png;base64,QUJD" "e" ["Pen"]).1
      urlsW (by decide),
   (regenerate_guard_unreachable envOkW "data:image/png;base64,QUJD" "e" ["Pen"]).2⟩

/-- C4 (counterexample): the claim "pitch never exceeds ±90° for every
sequence of pointer-drag and arrow-key input events" fails as stated: after
the two pointer events `mousedown (0,0)`, `mousemove (0,-1000)` — with no
animation frame in between — the camera's raw pitch is 5 radians, strictly
above `π/2` (90°), because `handleMouseMove` applies no clamp. -/
theorem viewer_pitch_exceeds_between_drag_and_frame :
    (viewerRun initViewerState [.mouseDown 0 0, .mouseMove 0 (-1000)]).pitch = 5 ∧
    ((5 : ℝ) > Real.pi / 2) := by
  constructor
  · norm_num [viewerRun, List.foldl, viewerStep, handleMouseMove, initViewerState,
      rotationSpeed]
  · have h := Real.pi_lt_d2
    linarith

/-- C4 (amended): the pitch is clamped to `[-Math.PI/2, Math.PI/2]` by every
animation frame, so after any sequence of drag/key/frame events that ends with
a frame — of any cumulative magnitude — the rendered camera pitch lies within
the clamp bound (which is at most 90°); only between a drag event and the next
frame can the raw pitch transiently exceed it. -/
theorem viewer_pitch_clamped_at_frames (evs : List ViewerEvent) :
    -halfPiQ ≤ (viewerRun initViewerState (evs ++ [.frame])).pitch ∧
    (viewerRun initViewerState (evs ++ [.frame])).pitch ≤ halfPiQ := by
  have h : ∀ s : ViewerState,
      -halfPiQ ≤ (animateStep s).pitch ∧ (animateStep s).pitch ≤ halfPiQ := by
    intro s
    unfold animateStep
    refine ⟨le_max_left _ _, max_le ?_ (min_le_left _ _)⟩
    rw [halfPiQ]
    norm_num
  rw [viewerRun, List.foldl_append]
  exact h _

/-- The bounds of one navigation step: for a positive length and a nonnegative
index, JavaScript's truncating `%` lands in `[0, len)`. -/
theorem navStep_bounds {len i : Int} (hlen : 1 ≤ len) (h0 : 0 ≤ i) (op : NavOp) :
    0 ≤ navStep len i op ∧ navStep len i op < len := by
  cases op with
  | next =>
    unfold navStep handleNext
    exact ⟨Int.tmod_nonneg len (by omega), Int.tmod_lt_of_pos _ (by omega)⟩
  | prev =>
    unfold navStep handlePrev
    exact ⟨Int.tmod_nonneg len (by omega), Int.tmod_lt_of_pos _ (by omega)⟩

theorem navRun_bounds {len : Int} (hlen : 1 ≤ len) :
    ∀ (ops : List NavOp) (i : Int), 0 ≤ i → i < len →
      0 ≤ navRun len i ops ∧ navRun len i ops < len := by
  intro ops
  induction ops with
  | nil => intro i h0 hi; exact ⟨h0, hi⟩
  | cons op rest ih =>
    intro i h0 hi
    have hb := navStep_bounds hlen h0 op
    exact ih (navStep len i op) hb.1 hb.2

/-- C10: for a nonempty image list and an initial index in `[0, len)`, every
sequence of next/previous operations keeps the index in `[0, len)`; `next`
from the last index wraps to 0, and `prev` from 0 wraps to `len - 1`. -/
theorem fullscreen_nav_invariant (len i : Int) (ops : List NavOp)
    (hlen : 1 ≤ len) (h0 : 0 ≤ i) (hi : i < len) :
    (0 ≤ navRun len i ops ∧ navRun len i ops < len) ∧
    handleNext len (len - 1) = 0 ∧
    handlePrev len 0 = len - 1 := by
  refine ⟨navRun_bounds hlen ops i h0 hi, ?_, ?_⟩
  · unfold handleNext
    have h : len - 1 + 1 = len := by ring
    rw [h]
    exact Int.tmod_self
  · unfold handlePrev
    have h : (0 : Int) - 1 + len = len - 1 := by ring
    rw [h]
    exact Int.tmod_eq_of_lt (by omega) (by omega)

theorem fullscreen_nav_invariant_witness :
    (0 ≤ navRun 3 1 [.next, .prev, .prev] ∧ navRun 3 1 [.next, .prev, .prev] < 3) ∧
    handleNext 3 (3 - 1) = 0 ∧
    handlePrev 3 0 = 3 - 1 :=
  fullscreen_nav_invariant 3 1 [.next, .prev, .prev] (by decide) (by decide) (by decide)

theorem dataUrlToBase64_roundtrip_witness :
    ("image/png" ≠ "" ∧ "QUJD" ≠ "") ∧
    dataUrlToBase64 ("data:" ++ "image/png" ++ ";base64," ++ "QUJD")
      = .ok ("image/png", "QUJD") :=
  ⟨⟨by decide, by decide⟩,
   dataUrlToBase64_roundtrip "image/png" "QUJD" (by decide) (by decide)
     (by decide) (by decide)⟩

theorem dataUrlToBase64_error_characterization_witness :
    wellFormedDataUrl "nocomma".toList = false ∧
    dataUrlToBase64 "nocomma" = .error "Invalid data URL format" :=
  ⟨by decide, (dataUrlToBase64_error_characterization "nocomma").2 (by decide)⟩
